import Mathlib

/-!
Verification of the media capture addon (`media_dump.py`) of the
universal-video-downloader repository.

The Python module is shallowly embedded here:
* Python strings are embedded as `List Char` (`Str`); `str s` injects a Lean
  string literal.
* Response body bytes are embedded as `List Nat` (`Bytes`), each entry < 256.
* The process-wide mutable sets (`SEEN_IMAGE_URL`, `SEEN_VIDEO_URL`,
  `SEEN_MP4_URL`, `DOWNLOADING`, ...) and the output directory are gathered in
  an explicit `CaptureState` record that every embedded function threads.
* Observable side effects (appending a line to a log file, writing a binary
  file, spawning the external transcoder, starting a background download
  thread) are emitted as an `Ev` trace.
-/

set_option maxRecDepth 4000

abbrev Str := List Char

/-- Inject a Lean string literal as an embedded Python string. -/
def str (s : String) : Str := s.data

abbrev Bytes := List Nat

/-- Bytes of an ASCII literal (used for magic-number signatures). -/
def bstr (s : String) : Bytes := s.data.map Char.toNat

/-- Python `s.lower()` (ASCII; all strings handled by the addon are ASCII). -/
def lowerS (l : Str) : Str := l.map Char.toLower

/-- Python `s.split(c, 1)[0]`: the part of the string before the first
occurrence of `c` (the whole string when `c` does not occur). -/
def takeBefore (c : Char) (l : Str) : Str := l.takeWhile (· ≠ c)

/-- Python `s.split(c)` for a one-character separator: splits at every
occurrence, keeping empty parts (so the result is never the empty list). -/
def splitChar (c : Char) : Str → List Str
  | [] => [[]]
  | x :: xs =>
    match splitChar c xs with
    | [] => [[]]
    | y :: ys => if x = c then [] :: y :: ys else (x :: y) :: ys

/-- Python `s.split("/")[-1]`: the substring after the last `/`. -/
def lastSeg (l : Str) : Str := (splitChar '/' l).getLastD []

/-- Embeds `url_key` (media_dump.py line 121-122): `url.split("?", 1)[0]`, i.e. the
URL with its query string stripped — the canonical key of every ledger. -/
def url_key (url : Str) : Str := takeBefore '?' url

/-- Python `re.sub(r'[\\/:*?"<>|]', "_", s)`: replace each filesystem-reserved
character by an underscore (media_dump.py lines 440, 498, 553, 698). -/
def sanitizeName (l : Str) : Str :=
  l.map fun c => if c ∈ ['\\', '/', ':', '*', '?', '"', '<', '>', '|'] then '_' else c

/-- Render a natural number in decimal (Python string interpolation of an int). -/
def natStr (n : Nat) : Str := (toString n).data

/-- Stand-in for the `hashlib.md5(...).hexdigest()` prefixes used only to build
fallback file names (media_dump.py lines 360, 700): a deterministic 10-hex-char
rendering of a simple rolling hash.  No claim in this development depends on
the digest values, only on the call sites' string shapes. -/
def hashHex (l : Str) : Str :=
  let h := l.foldl (fun a c => (a * 131 + c.toNat) % 4294967296) 7
  let hex := Nat.toDigits 16 h
  (List.replicate (10 - hex.length) '0' ++ hex).take 10

/-- Python `str.replace(tgt, rep)`, all occurrences, scanning left to right;
fuel-based recursion (each step consumes at least one character, so
`l.length` fuel always suffices). -/
def replaceAllGo (tgt rep : Str) : Nat → Str → Str
  | _, [] => []
  | 0, l => l
  | fuel + 1, c :: rest =>
    if tgt.isPrefixOf (c :: rest) ∧ tgt ≠ [] then
      rep ++ replaceAllGo tgt rep fuel (rest.drop (tgt.length - 1))
    else
      c :: replaceAllGo tgt rep fuel rest

/-- Python `str.replace(tgt, rep)` (all occurrences), for non-empty `tgt`. -/
def replaceAll (tgt rep l : Str) : Str := replaceAllGo tgt rep l.length l

/-- An intercepted HTTP exchange as seen by the addon's hooks: request URL,
response status, the two response headers the addon reads (`Content-Type` and
the vendor hint `imagex-fmt`), the request headers, and the body bytes.
`none` models an absent header (`headers.get` returning `None` / default). -/
structure Exchange where
  url : Str
  status : Nat
  contentType : Option Str := none
  imagexFmt : Option Str := none
  reqHeaders : List (Str × Str) := []
  content : Bytes := []
deriving DecidableEq

/-- Embeds `flow.response.headers.get("Content-Type", "").lower()`. -/
def ctLower (f : Exchange) : Str := lowerS (f.contentType.getD [])

-- =====================================================================
-- Directory and log-file constants (media_dump.py lines 76-97).
-- `os.path.join` is embedded with the "/" separator.
-- =====================================================================

def BASE_DIR : Str := str "output"
def IMG_DIR : Str := str "output/images"
def IMG_CONVERT_DIR : Str := str "output/images/converted"
def VIDEO_DIR : Str := str "output/videos"
def M3U8_DIR : Str := str "output/videos/m3u8"
def TS_DIR : Str := str "output/videos/ts"
def MP4_DIR : Str := str "output/videos/mp4"
def MPD_DIR : Str := str "output/videos/mpd"
def M4S_DIR : Str := str "output/videos/m4s"
def MP4_DIRECT_DIR : Str := str "output/videos/mp4_direct"
def IMAGE_URL_LOG : Str := str "output/image_urls.txt"
def IMAGE_ALL_LOG : Str := str "output/image_all_urls.txt"
def IMAGE_UNPARSED_LOG : Str := str "output/unparsed_debug.txt"
def VIDEO_URL_LOG : Str := str "output/video_urls.txt"
def VIDEO_ALL_LOG : Str := str "output/video_all_urls.txt"
def VIDEO_ERROR_LOG : Str := str "output/video_errors.txt"

/-- Observable side effects of the embedded functions, in program order:
`line` is `append_line(log, text)`; `unparsed` is one block record written by
`log_unparsed_image`; `fwrite` is `save_binary(path, data)`; `spawnT` is a
`subprocess.Popen(cmd)` launch of the external transcoder (asynchronous, not
waited on); `avif` marks dispatch of the AVIF probe/convert pipeline for a
saved file; `start` marks a background download thread being started for a
canonical key with the given source URL and destination path. -/
inductive Ev where
  | line (log : Str) (text : Str)
  | unparsed (reason : Str) (extra : Str) (url : Str)
  | fwrite (path : Str) (data : Bytes)
  | spawnT (cmd : List Str)
  | avif (path : Str) (nameRoot : Str)
  | start (key : Str) (url : Str) (outPath : Str)
deriving DecidableEq

/-- The process-wide mutable state of the addon: the dedup ledgers
(media_dump.py lines 109-117) and the files written under `output/`.
`files` is newest-first; an entry shadows (overwrites) older entries with the
same path, so `List.lookup` reads the current file contents. -/
structure CaptureState where
  seenImage : List Str := []
  seenImageAll : List Str := []
  seenVideo : List Str := []
  seenVideoAll : List Str := []
  seenMp4 : List Str := []
  downloading : List Str := []
  files : List (Str × Bytes) := []
deriving DecidableEq

-- =====================================================================
-- Image format resolution (media_dump.py lines 266-339).
-- =====================================================================

/-- Embeds `detect_magic_ext` (lines 266-277): magic-number sniffing. -/
def detect_magic_ext (data : Bytes) : Option Str :=
  if [0xFF, 0xD8, 0xFF].isPrefixOf data then some (str "jpg")
  else if [0x89, 0x50, 0x4E, 0x47, 0x0D, 0x0A, 0x1A, 0x0A].isPrefixOf data then some (str "png")
  else if (bstr "GIF87a").isPrefixOf data ∨ (bstr "GIF89a").isPrefixOf data then some (str "gif")
  else if 12 ≤ data.length ∧ (data.drop 4).take 8 = bstr "ftypavif" then some (str "avif")
  else if 12 ≤ data.length ∧
      ((data.drop 4).take 8 = bstr "ftypheic" ∨ (data.drop 4).take 8 = bstr "ftypheif") then
    some (str "heic")
  else none

/-- Embeds `ext_from_imagex_fmt` (lines 280-309): vendor hint mapping table with
suffix-pattern fallbacks; unmapped values resolve to `"bin"`. -/
def ext_from_imagex_fmt (fmt0 : Str) : Str :=
  let fmt := lowerS fmt0
  let table : List (Str × Str) :=
    [(str "jpg", str "jpg"), (str "jpeg", str "jpg"), (str "png", str "png"),
     (str "gif", str "gif"), (str "webp", str "webp"), (str "avif", str "avif"),
     (str "heic", str "heic"), (str "heif", str "heif"),
     (str "avif2webp", str "webp"), (str "heic2webp", str "webp"),
     (str "jpeg2webp", str "webp"), (str "png2webp", str "webp"),
     (str "avif2avif", str "avif")]
  match table.lookup fmt with
  | some e => e
  | none =>
    if (str "2avif").isSuffixOf fmt then str "avif"
    else if (str "2webp").isSuffixOf fmt then str "webp"
    else if (str "2jpg").isSuffixOf fmt ∨ (str "2jpeg").isSuffixOf fmt then str "jpg"
    else if (str "2png").isSuffixOf fmt then str "png"
    else str "bin"

/-- One position of the `ext_from_url` regex search
(`re.search(r"\.(jpg|jpeg|png|gif|bmp|webp|svg|avif|heic)(\?|$)", url, re.IGNORECASE)`,
line 313): at a position starting with `'.'`, try each alternative in the
pattern's order; the captured group must be followed by `'?'` or end of string.
Matching is case-insensitive and the captured group is lowered on return. -/
def imageExtAt (l : Str) : Option Str :=
  match l with
  | '.' :: rest =>
    [str "jpg", str "jpeg", str "png", str "gif", str "bmp", str "webp",
     str "svg", str "avif", str "heic"].find? fun e =>
      e.isPrefixOf (lowerS rest) &&
        (match rest.drop e.length with
         | [] => true
         | '?' :: _ => true
         | _ => false)
  | _ => none

/-- Leftmost-position search for the image-extension pattern (the semantics of
`re.search`): scan positions left to right, first position with a match wins. -/
def searchImageExt : Str → Option Str
  | [] => none
  | c :: rest =>
    match imageExtAt (c :: rest) with
    | some e => some e
    | none => searchImageExt rest

/-- Embeds `ext_from_url` (lines 312-316). -/
def ext_from_url (url : Str) : Option Str := searchImageExt url

/-- Tiers 2-4 of `detect_image_ext` (lines 328-339), reached whenever the
vendor hint header is absent or empty (Python `if fmt:` falsy): `Content-Type`
subtype when it begins with `image/`, then magic bytes, then URL extension,
else `"bin"`. -/
def detect_image_ext_rest (f : Exchange) (data : Bytes) : Str :=
  let content_type := ctLower f
  if (str "image/").isPrefixOf content_type then
    lowerS (takeBefore ';' ((splitChar '/' content_type).getD 1 []))
  else
    match detect_magic_ext data with
    | some m => m
    | none =>
      match ext_from_url f.url with
      | some e => e
      | none => str "bin"

/-- Embeds `detect_image_ext` (lines 319-339): 4-tier fallback, vendor hint first. -/
def detect_image_ext (f : Exchange) (data : Bytes) : Str :=
  match f.imagexFmt with
  | some fmt => if fmt = [] then detect_image_ext_rest f data else ext_from_imagex_fmt fmt
  | none => detect_image_ext_rest f data

-- =====================================================================
-- Name resolution (media_dump.py lines 342-361).
-- =====================================================================

/-- Python `pat in s` (substring containment). -/
def containsSeq (pat : Str) : Str → Bool
  | [] => pat.isEmpty
  | c :: rest => pat.isPrefixOf (c :: rest) || containsSeq pat rest

/-- The regex character class `[A-Za-z0-9_-]`. -/
def isWordChar (c : Char) : Bool := c.isAlphanum ∨ c = '_' ∨ c = '-'

/-- Embeds `re.match(r"(DSC|IMGS|IMG|PXL|photo|mmexport)[A-Za-z0-9_-]+\.", p, re.IGNORECASE)`
(line 347), as a boolean: some alternative is a case-insensitive prefix of `p`,
followed by at least one word character and then a literal dot.  (Because `.`
is not a word character, greedy matching and the existential semantics of the
regex agree.) -/
def camera_match (p : Str) : Bool :=
  [str "dsc", str "imgs", str "img", str "pxl", str "photo", str "mmexport"].any fun pre =>
    pre.isPrefixOf (lowerS p) &&
      (let rest := p.drop pre.length
       let w := rest.takeWhile isWordChar
       decide (w ≠ []) && ((rest.drop w.length).headD ' ' = '.'))

/-- Embeds `re.match(r"[A-Za-z0-9_-]{3,}", s)` (lines 352, 357): at least three
leading word characters. -/
def plausibleId (l : Str) : Bool := 3 ≤ l.length && (l.take 3).all isWordChar

/-- Embeds `re.split(r"[\*~]tplv", s)[0]` (line 355): the part before the first
occurrence of `'*'` or `'~'` immediately followed by `tplv`. -/
def splitTplv : Str → Str
  | [] => []
  | c :: rest =>
    if (c = '*' ∨ c = '~') ∧ (str "tplv").isPrefixOf rest then []
    else c :: splitTplv rest

/-- Embeds `extract_original_name` (lines 342-361). -/
def extract_original_name (url : Str) : Str :=
  let clean := takeBefore '?' url
  let parts := splitChar '/' clean
  match parts.find? camera_match with
  | some p => takeBefore '.' p
  | none =>
    let second : Option Str :=
      if 2 < parts.length then
        let cand := parts.getD (parts.length - 2) []
        if plausibleId cand && !(containsSeq (str "tplv") cand) then some cand else none
      else none
    match second with
    | some cand => cand
    | none =>
      let last1 := takeBefore '.' (splitTplv (parts.getLastD []))
      if plausibleId last1 then last1
      else str "img_" ++ (hashHex clean).take 10

-- =====================================================================
-- Image saving (media_dump.py lines 141-169, 413-447).
-- =====================================================================

/-- Embeds `log_unparsed_image` (lines 141-169): one block-structured diagnostic
record appended to `unparsed_debug.txt` (reason code, optional extra, URL). -/
def log_unparsed_image (f : Exchange) (reason : Str) (extra : Str) : Ev :=
  Ev.unparsed reason extra f.url

/-- Embeds `save_image` (lines 413-447): status gate, minimum-size gate, canonical-key
dedup against `SEEN_IMAGE_URL`, accepted-URL log append, format resolution,
sanitized file write, and AVIF conversion dispatch. -/
def save_image (st : CaptureState) (f : Exchange) : CaptureState × List Ev :=
  let url := f.url
  let data := f.content
  if ¬ (f.status = 200 ∨ f.status = 206) then
    (st, [log_unparsed_image f (str "NON_200_STATUS") (str "status=" ++ natStr f.status)])
  else if data.length < 5 then
    (st, [log_unparsed_image f (str "EMPTY_OR_TOO_SMALL") []])
  else
    let k := url_key url
    if k ∈ st.seenImage then
      (st, [log_unparsed_image f (str "DUPLICATE_URL") []])
    else
      let st1 := { st with seenImage := k :: st.seenImage }
      let ev1 := Ev.line IMAGE_URL_LOG url
      let name_root := extract_original_name url
      let ext := detect_image_ext f data
      if ext = str "bin" then
        (st1, [ev1, log_unparsed_image f (str "UNKNOWN_FORMAT_BIN") []])
      else
        let final_name := sanitizeName (name_root ++ str "." ++ ext)
        let save_path := IMG_DIR ++ str "/" ++ final_name
        let st2 := { st1 with files := (save_path, data) :: st1.files }
        if ext = str "avif" then
          (st2, [ev1, Ev.fwrite save_path data, Ev.avif save_path name_root])
        else
          (st2, [ev1, Ev.fwrite save_path data])

-- =====================================================================
-- Video candidate predicates and all-URLs ledger (lines 211-260, 562-569).
-- =====================================================================

/-- Embeds `is_video_candidate` (lines 211-249): the diagnostic "relevant at all"
superset predicate over the lowered URL and `Content-Type`. -/
def is_video_candidate (f : Exchange) : Bool :=
  let url := lowerS f.url
  let ct := ctLower f
  (str ".m3u8").isSuffixOf url || containsSeq (str ".m3u8?") url
    || (containsSeq (str "m3u8") url
        && (containsSeq (str "api") url || containsSeq (str "/m3u8/") url))
    || (str "application/vnd.apple.mpegurl").isPrefixOf ct
    || (str "application/x-mpegurl").isPrefixOf ct
    || (str ".ts").isSuffixOf url || containsSeq (str ".ts?") url || ct = str "video/mp2t"
    || (str ".mpd").isSuffixOf url || containsSeq (str ".mpd?") url
    || (str "application/dash+xml").isPrefixOf ct
    || (str ".m4s").isSuffixOf url || containsSeq (str ".m4s?") url
    || (containsSeq (str ".m4s") url
        && ((str "video/").isPrefixOf ct || (str "application/octet-stream").isPrefixOf ct))
    || (str "video/mp4").isPrefixOf ct || (str ".mp4").isSuffixOf url
    || containsSeq (str ".mp4?") url
    || (str "video/").isPrefixOf ct

/-- Embeds `log_all_video_url` (lines 252-260): diagnostic all-video-URLs ledger,
deduplicated by canonical key, recorded before any save decision. -/
def log_all_video_url (st : CaptureState) (f : Exchange) : CaptureState × List Ev :=
  let k := url_key f.url
  if k ∈ st.seenVideoAll then (st, [])
  else
    ({ st with seenVideoAll := k :: st.seenVideoAll },
     [Ev.line VIDEO_ALL_LOG (f.url ++ str "    [ct=" ++ ctLower f ++ str "]")])

/-- Embeds `is_mp4_candidate` (lines 562-569). -/
def is_mp4_candidate (f : Exchange) : Bool :=
  let url := lowerS f.url
  let ct := ctLower f
  (str "video/mp4").isPrefixOf ct || (str ".mp4").isSuffixOf url
    || containsSeq (str ".mp4?") url

/-- Embeds `pick_download_headers` (lines 572-583): replicate the anti-leech request
headers, keeping only present, non-empty values. -/
def pick_download_headers (f : Exchange) : List (Str × Str) :=
  [str "Referer", str "Origin", str "User-Agent", str "Cookie", str "Accept"].filterMap
    fun k =>
      match f.reqHeaders.lookup k with
      | some v => if v = [] then none else some (k, v)
      | none => none

-- =====================================================================
-- HLS / DASH manifest and segment handling (lines 453-556).
-- =====================================================================

/-- Embeds `save_m3u8_and_download` (lines 453-488): status and size gates, accepted
ledger (`SEEN_VIDEO_URL` + `video_urls.txt`), manifest persisted under
`videos/m3u8/`, and the external transcoder launched asynchronously against
the original URL with `-c copy` into `videos/mp4/`. -/
def save_m3u8_and_download (st : CaptureState) (f : Exchange) : CaptureState × List Ev :=
  let url := f.url
  let data := f.content
  if ¬ (f.status = 200 ∨ f.status = 206) then
    (st, [Ev.line VIDEO_ERROR_LOG
      (str "[NON_200_M3U8] status=" ++ natStr f.status ++ str " url=" ++ url)])
  else if data.length < 10 then
    (st, [Ev.line VIDEO_ERROR_LOG
      (str "[SMALL_M3U8] len=" ++ natStr data.length ++ str " url=" ++ url)])
  else
    let k := url_key url
    if k ∈ st.seenVideo then (st, [])
    else
      let st1 := { st with seenVideo := k :: st.seenVideo }
      let ev1 := Ev.line VIDEO_URL_LOG url
      let fname0 := takeBefore '?' (lastSeg url)
      let fname1 := if fname0 = [] then str "index.m3u8" else fname0
      let fname := if (str ".m3u8").isSuffixOf fname1 then fname1 else fname1 ++ str ".m3u8"
      let m3u8_path := M3U8_DIR ++ str "/" ++ fname
      let st2 := { st1 with files := (m3u8_path, data) :: st1.files }
      let mp4_name := replaceAll (str ".m3u8") (str ".mp4") fname
      let mp4_path := MP4_DIR ++ str "/" ++ mp4_name
      let cmd := [str "ffmpeg", str "-y", str "-i", url, str "-c", str "copy", mp4_path]
      (st2, [ev1, Ev.fwrite m3u8_path data, Ev.spawnT cmd])

/-- The target path of `save_ts_segment` (lines 497-500): the sanitized final
path segment of the URL (query stripped), `segment.ts` when empty. -/
def ts_target (f : Exchange) : Str :=
  let fname0 := takeBefore '?' (lastSeg f.url)
  let fname1 := if fname0 = [] then str "segment.ts" else fname0
  TS_DIR ++ str "/" ++ sanitizeName fname1

/-- Embeds `save_ts_segment` (lines 491-502): any body of at least 10 bytes is
written unconditionally (no status gate, no ledger); shorter bodies are
silently dropped. -/
def save_ts_segment (st : CaptureState) (f : Exchange) : CaptureState × List Ev :=
  if f.content.length < 10 then (st, [])
  else
    ({ st with files := (ts_target f, f.content) :: st.files },
     [Ev.fwrite (ts_target f) f.content])

/-- Embeds `save_mpd_and_download` (lines 508-543): the DASH-manifest twin of
`save_m3u8_and_download`. -/
def save_mpd_and_download (st : CaptureState) (f : Exchange) : CaptureState × List Ev :=
  let url := f.url
  let data := f.content
  if ¬ (f.status = 200 ∨ f.status = 206) then
    (st, [Ev.line VIDEO_ERROR_LOG
      (str "[NON_200_MPD] status=" ++ natStr f.status ++ str " url=" ++ url)])
  else if data.length < 10 then
    (st, [Ev.line VIDEO_ERROR_LOG
      (str "[SMALL_MPD] len=" ++ natStr data.length ++ str " url=" ++ url)])
  else
    let k := url_key url
    if k ∈ st.seenVideo then (st, [])
    else
      let st1 := { st with seenVideo := k :: st.seenVideo }
      let ev1 := Ev.line VIDEO_URL_LOG url
      let fname0 := takeBefore '?' (lastSeg url)
      let fname1 := if fname0 = [] then str "manifest.mpd" else fname0
      let fname := if (str ".mpd").isSuffixOf fname1 then fname1 else fname1 ++ str ".mpd"
      let mpd_path := MPD_DIR ++ str "/" ++ fname
      let st2 := { st1 with files := (mpd_path, data) :: st1.files }
      let mp4_name := replaceAll (str ".mpd") (str ".mp4") fname
      let mp4_path := MP4_DIR ++ str "/" ++ mp4_name
      let cmd := [str "ffmpeg", str "-y", str "-i", url, str "-c", str "copy", mp4_path]
      (st2, [ev1, Ev.fwrite mpd_path data, Ev.spawnT cmd])

/-- The target path of `save_m4s_segment` (lines 552-554). -/
def m4s_target (f : Exchange) : Str :=
  let fname0 := takeBefore '?' (lastSeg f.url)
  let fname1 := if fname0 = [] then str "segment.m4s" else fname0
  M4S_DIR ++ str "/" ++ sanitizeName fname1

/-- Embeds `save_m4s_segment` (lines 546-556): like `save_ts_segment` for DASH. -/
def save_m4s_segment (st : CaptureState) (f : Exchange) : CaptureState × List Ev :=
  if f.content.length < 10 then (st, [])
  else
    ({ st with files := (m4s_target f, f.content) :: st.files },
     [Ev.fwrite (m4s_target f) f.content])

-- =====================================================================
-- Direct-MP4 download dispatch (lines 675-718).
-- =====================================================================

/-- Embeds `start_mp4_download_once` (lines 675-718), whole-call (sequential) view:
status and candidate gates; canonical-key check-and-add on `SEEN_MP4_URL`
(lines 688-691, performed *without* holding any lock); accepted-URL log
append; destination-path construction; then, under `DOWNLOADING_LOCK`, a
check-and-add on `DOWNLOADING` guarding the background thread start.
`Ev.start k url out` marks `threading.Thread(target=worker).start()`; the
worker itself is modelled by `mp4_worker`. -/
def start_mp4_download_once (st : CaptureState) (f : Exchange) : CaptureState × List Ev :=
  let url := f.url
  if ¬ (f.status = 200 ∨ f.status = 206) then (st, [])
  else if ¬ is_mp4_candidate f then (st, [])
  else
    let k := url_key url
    if k ∈ st.seenMp4 then (st, [])
    else
      let st1 := { st with seenMp4 := k :: st.seenMp4 }
      let ev1 := Ev.line VIDEO_URL_LOG url
      let base0 := lastSeg (takeBefore '?' url)
      let base1 := if base0 = [] then str "video.mp4" else base0
      let base2 := if (str ".mp4").isSuffixOf base1 then base1 else base1 ++ str ".mp4"
      let base := sanitizeName base2
      let h := (hashHex url).take 8
      let out_path := MP4_DIRECT_DIR ++ str "/" ++ base.take (base.length - 4)
        ++ str "_" ++ h ++ str ".mp4"
      if k ∈ st1.downloading then (st1, [ev1])
      else
        ({ st1 with downloading := k :: st1.downloading },
         [ev1, Ev.start k url out_path])

/-- The `worker` closure of `start_mp4_download_once` (lines 710-716):
`try: stream_download_mp4(...) finally: DOWNLOADING.discard(k)`.  `body`
abstracts the effect of `stream_download_mp4` — which never touches the
ledgers — together with a possible unexpected internal exception
(`some msg`); the `finally` discard runs in every case, and any exception is
re-raised (returned) after it. -/
def mp4_worker (k : Str) (body : CaptureState → CaptureState × Option Str)
    (st : CaptureState) : CaptureState × Option Str :=
  let r := body st
  ({ r.1 with downloading := r.1.downloading.filter (· ≠ k) }, r.2)

-- =====================================================================
-- The video half of the `response` hook (lines 743-779).
-- =====================================================================

/-- The video branch of the mitmproxy `response` hook (lines 743-779): record
the diagnostic all-video ledger, then dispatch by fixed priority — direct MP4,
HLS manifest, HLS segment, DASH manifest, DASH segment.  (The image half,
lines 729-741, dispatches to `save_image` and is independent of this half;
the claims against the orchestrator only concern the video dispatch.)
As in the source, the URL is matched case-sensitively here while
`content_type` is lowered. -/
def response_video (st : CaptureState) (f : Exchange) : CaptureState × List Ev :=
  let url := f.url
  let content_type := ctLower f
  if ¬ is_video_candidate f then (st, [])
  else
    let r1 := log_all_video_url st f
    if is_mp4_candidate f then
      let r2 := start_mp4_download_once r1.1 f
      (r2.1, r1.2 ++ r2.2)
    else if (str "application/vnd.apple.mpegurl").isPrefixOf content_type
        || (str "application/x-mpegurl").isPrefixOf content_type
        || (str ".m3u8").isSuffixOf url || containsSeq (str ".m3u8?") url then
      let r2 := save_m3u8_and_download r1.1 f
      (r2.1, r1.2 ++ r2.2)
    else if (str ".ts").isSuffixOf url || containsSeq (str ".ts?") url
        || content_type = str "video/mp2t" then
      let r2 := save_ts_segment r1.1 f
      (r2.1, r1.2 ++ r2.2)
    else if (str ".mpd").isSuffixOf url || containsSeq (str ".mpd?") url
        || (str "application/dash+xml").isPrefixOf content_type then
      let r2 := save_mpd_and_download r1.1 f
      (r2.1, r1.2 ++ r2.2)
    else if (str ".m4s").isSuffixOf url || containsSeq (str ".m4s?") url
        || containsSeq (str ".m4s") url then
      let r2 := save_m4s_segment r1.1 f
      (r2.1, r1.2 ++ r2.2)
    else (r1.1, r1.2)

-- =====================================================================
-- The resilient streaming downloader `stream_download_mp4` (lines 586-672).
-- =====================================================================

/-- Python `int(s)` on a header value, as used at lines 631/636: succeeds on a
digit string, any other input raises (modelled as `none`, which the source
turns into `total = None`). -/
def parseNat (l : Str) : Option Nat :=
  if l ≠ [] ∧ l.all Char.isDigit then
    some (l.foldl (fun a c => a * 10 + (c.toNat - 48)) 0)
  else none

/-- The server's behaviour on one `requests.get` attempt: `connectError` means
the `get` call itself raises (connect/read timeout, TLS failure); otherwise
the response carries `status`, headers, and the body `chunks` that
`iter_content` yields; `failAfter = some n` means the body stream raises after
yielding the first `n` chunks. -/
structure AttemptResp where
  connectError : Bool := false
  status : Nat := 200
  chunks : List Bytes := []
  failAfter : Option Nat := none
  contentRange : Option Str := none
  contentLength : Option Str := none
deriving DecidableEq

/-- The `total` computation of lines 627-637 (progress denominator):
`Content-Range` after the slash when present, else `existing` plus
`Content-Length`; any parse failure yields `None`. -/
def attemptTotal (existing : Nat) (r : AttemptResp) : Option Nat :=
  let fromCL : Option Nat :=
    match r.contentLength with
    | some cl => if cl = [] then none else (parseNat cl).map (existing + ·)
    | none => none
  match r.contentRange with
  | some cr =>
    if cr ≠ [] ∧ containsSeq (str "/") cr then parseNat ((splitChar '/' cr).getLastD [])
    else fromCL
  | none => fromCL

/-- Result of one iteration of the retry loop body (lines 597-664): `tmp` is
the `.part` file after the attempt (`none` = absent), `outFile` is the new
content of the destination when the attempt completed (`os.remove` +
`os.rename`, lines 660-662), `mode` is the open mode actually used,
`startDownloaded`/`endDownloaded` the progress counter before/after the body
loop, `total` the progress denominator. -/
structure AttemptResult where
  ok : Bool
  tmp : Option Bytes
  outFile : Option Bytes
  mode : Str
  startDownloaded : Nat
  endDownloaded : Nat
  total : Option Nat
deriving DecidableEq

/-- One iteration of the retry loop of `stream_download_mp4` (lines 597-664):
compute `existing` from the partial artifact, send `Range: bytes=existing-`
iff `existing > 0`, abort on a status outside {200, 206}; a `200` answer to a
ranged request removes the partial artifact and resets `existing` to `0`
(lines 618-623); open in `"ab"` iff `existing > 0`, stream the chunks
(skipping empty ones), and on completion atomically replace the destination. -/
def mp4_attempt (tmp0 : Option Bytes) (r : AttemptResp) : AttemptResult :=
  let existing := (tmp0.getD []).length
  if r.connectError then
    ⟨false, tmp0, none, [], existing, existing, none⟩
  else if ¬ (r.status = 200 ∨ r.status = 206) then
    ⟨false, tmp0, none, [], existing, existing, none⟩
  else
    let removed := 0 < existing ∧ r.status = 200
    let tmp1 := if removed then none else tmp0
    let existing1 := if removed then 0 else existing
    let mode := if 0 < existing1 then str "ab" else str "wb"
    let base := if 0 < existing1 then tmp1.getD [] else []
    let delivered := match r.failAfter with
      | none => r.chunks
      | some n => r.chunks.take n
    let written := delivered.filter (fun c => c ≠ [])
    let fileContent := base ++ written.flatten
    let downloaded := existing1 + (written.map List.length).sum
    let total := attemptTotal existing1 r
    match r.failAfter with
    | some _ => ⟨false, some fileContent, none, mode, existing1, downloaded, total⟩
    | none => ⟨true, none, some fileContent, mode, existing1, downloaded, total⟩

/-- Trace events of the downloader: `attemptStart n existing` is the
per-attempt log line 604; `errLine n url out` is the `[MP4_DOWNLOAD_ERROR]
attempt=n ... url=... out=...` append to `video_errors.txt` (line 667);
`sleepMs` is `time.sleep(1.5 * attempt)` in milliseconds (1.5·n s = 1500·n ms,
exactly); `finished` is the `[MP4 DONE]` completion (line 663). -/
inductive DlEvent where
  | attemptStart (n : Nat) (existing : Nat)
  | errLine (n : Nat) (url : Str) (outPath : Str)
  | sleepMs (ms : Nat)
  | finished (outPath : Str)
deriving DecidableEq

/-- Final outcome of `stream_download_mp4`: the `.part` artifact, the
destination file contents, and the event trace.  The function always returns
(every attempt's exception is caught at line 666; after the last attempt it
returns at line 670 without raising), so no error component exists. -/
structure DlRun where
  tmp : Option Bytes
  outFile : Option Bytes
  events : List DlEvent
deriving DecidableEq

/-- The retry loop of `stream_download_mp4` (lines 596-672), unrolled on the
number of remaining attempts; `attempt` is the 1-based loop counter and
`remaining = max_retries - attempt + 1`, so `remaining = 1` is the final
attempt (`attempt == max_retries`, line 669: return without sleeping).
`resps n` is the server's behaviour on attempt `n`; `out0` the pre-existing
destination contents.  After a failure the next iteration recomputes
`existing` from the `.part` file (line 672). -/
def mp4_download_go (resps : Nat → AttemptResp) (url outPath : Str)
    (tmp : Option Bytes) (out0 : Option Bytes) (attempt : Nat) :
    Nat → DlRun
  | 0 => ⟨tmp, out0, []⟩
  | remaining + 1 =>
    let r := resps attempt
    let a := mp4_attempt tmp r
    let ev0 := DlEvent.attemptStart attempt ((tmp.getD []).length)
    if a.ok then ⟨a.tmp, a.outFile, [ev0, DlEvent.finished outPath]⟩
    else if remaining = 0 then
      ⟨a.tmp, out0, [ev0, DlEvent.errLine attempt url outPath]⟩
    else
      let rest := mp4_download_go resps url outPath a.tmp out0 (attempt + 1) remaining
      ⟨rest.tmp, rest.outFile,
        ev0 :: DlEvent.errLine attempt url outPath :: DlEvent.sleepMs (1500 * attempt)
          :: rest.events⟩

/-- Embeds `stream_download_mp4(url, headers, out_path, timeout=(10,60), max_retries=3)`
(lines 586-672). -/
def stream_download_mp4 (resps : Nat → AttemptResp) (url outPath : Str)
    (tmp0 : Option Bytes) (out0 : Option Bytes) (max_retries : Nat) : DlRun :=
  mp4_download_go resps url outPath tmp0 out0 1 max_retries

-- =====================================================================
-- Fine-grained interleaving model of `start_mp4_download_once`
-- (lines 688-718) and its worker (lines 710-716).
-- =====================================================================

/-- A thread of the interleaving model, with its canonical key and program
counter.  `hook k pc` is an invocation of `start_mp4_download_once` that has
passed the pure status/candidate gates and computed `k = url_key(url)`:
pc 0 = line 689 `if k in SEEN_MP4_URL: return`;
pc 1 = line 691 `SEEN_MP4_URL.add(k)` (lines 693-703 touch no shared set);
pc 2 = line 705 acquire `DOWNLOADING_LOCK`;
pc 3 = line 706 `if k in DOWNLOADING: return` (releasing the lock on exit);
pc 4 = line 708 `DOWNLOADING.add(k)`;
pc 5 = release the lock (end of the `with` block);
pc 6 = line 718 start the worker thread;
pc 9 = returned.
`worker k pc` is the spawned worker: pc 0 = `stream_download_mp4` runs to
termination (it touches none of the shared sets); pc 1/2/3 = the `finally`
block's acquire / `DOWNLOADING.discard(k)` / release; pc 4 = thread ended. -/
inductive TCode where
  | hook (k : Str) (pc : Nat)
  | worker (k : Str) (pc : Nat)
deriving DecidableEq

/-- Shared state of the interleaving model: `SEEN_MP4_URL`, `DOWNLOADING`,
whether `DOWNLOADING_LOCK` is held, the keys of download tasks started so far
(in order), and the thread pool. -/
structure RaceState where
  seen : List Str := []
  inflight : List Str := []
  lockHeld : Bool := false
  started : List Str := []
  threads : List TCode := []
deriving DecidableEq

/-- One atomic step of thread `i` (each step is one Python statement on the
shared state; a blocked lock acquisition or a finished thread leaves the
state unchanged). -/
def raceStep (s : RaceState) (i : Nat) : RaceState :=
  match s.threads.get? i with
  | none => s
  | some (TCode.hook k pc) =>
    if pc = 0 then
      { s with threads := s.threads.set i (TCode.hook k (if k ∈ s.seen then 9 else 1)) }
    else if pc = 1 then
      { s with seen := k :: s.seen, threads := s.threads.set i (TCode.hook k 2) }
    else if pc = 2 then
      if s.lockHeld then s
      else { s with lockHeld := true, threads := s.threads.set i (TCode.hook k 3) }
    else if pc = 3 then
      if k ∈ s.inflight then
        { s with lockHeld := false, threads := s.threads.set i (TCode.hook k 9) }
      else { s with threads := s.threads.set i (TCode.hook k 4) }
    else if pc = 4 then
      { s with inflight := k :: s.inflight, threads := s.threads.set i (TCode.hook k 5) }
    else if pc = 5 then
      { s with lockHeld := false, threads := s.threads.set i (TCode.hook k 6) }
    else if pc = 6 then
      { s with started := s.started ++ [k],
               threads := s.threads.set i (TCode.hook k 9) ++ [TCode.worker k 0] }
    else s
  | some (TCode.worker k pc) =>
    if pc = 0 then { s with threads := s.threads.set i (TCode.worker k 1) }
    else if pc = 1 then
      if s.lockHeld then s
      else { s with lockHeld := true, threads := s.threads.set i (TCode.worker k 2) }
    else if pc = 2 then
      { s with inflight := s.inflight.filter (· ≠ k),
               threads := s.threads.set i (TCode.worker k 3) }
    else if pc = 3 then
      { s with lockHeld := false, threads := s.threads.set i (TCode.worker k 4) }
    else s

/-- Run the interleaving model under an explicit schedule (the list of thread
indices granted successive atomic steps). -/
def raceRun (s : RaceState) (sched : List Nat) : RaceState := sched.foldl raceStep s

/-- Two concurrent invocations of `start_mp4_download_once`, both carrying the
same canonical key. -/
def raceTwo (k : Str) : RaceState :=
  { threads := [TCode.hook k 0, TCode.hook k 0] }

-- =====================================================================
-- Derived definitions used by the statements below.
-- =====================================================================

/-- Sequential processing of a list of exchanges by the direct-MP4 dispatch,
as the interception host does when it invokes the hook once per exchange. -/
def processMp4 (st : CaptureState) : List Exchange → CaptureState × List Ev
  | [] => (st, [])
  | f :: fs =>
    let r1 := start_mp4_download_once st f
    let r2 := processMp4 r1.1 fs
    (r2.1, r1.2 ++ r2.2)

/-- Is this event the start of a download task for canonical key `k`? -/
def isStartFor (k : Str) : Ev → Bool
  | Ev.start k2 _ _ => k2 == k
  | _ => false

/-- Number of download tasks started for canonical key `k` in a trace. -/
def startsFor (evs : List Ev) (k : Str) : Nat := (evs.filter (isStartFor k)).length

/-- Number of download attempts in a downloader trace. -/
def countAttempts (evs : List DlEvent) : Nat :=
  (evs.filter fun e => match e with | DlEvent.attemptStart _ _ => true | _ => false).length

-- Concrete exchanges used by witnesses and counterexamples.

def c1Flow : Exchange :=
  { url := str "https://v.example.com/a.mp4"
    status := 200
    contentType := some (str "video/mp4") }

def c2Flow : Exchange :=
  { url := str "https://img.example.com/p"
    status := 200
    contentType := some (str "image/png")
    content := [0xFF, 0xD8, 0xFF, 0, 0] }

def c2wFlow : Exchange :=
  { url := str "https://img.example.com/p2"
    status := 200
    contentType := some (str "application/octet-stream")
    content := [0xFF, 0xD8, 0xFF, 1, 2] }

def c3Flow : Exchange :=
  { url := str "https://cdn.example.com/data/blob"
    status := 200
    contentType := some (str "application/octet-stream")
    content := [1, 2, 3, 4, 5, 6] }

def c6Flow : Exchange :=
  { url := str "https://img.example.com/photo/p.jpg?v=2"
    status := 200
    contentType := some (str "image/jpeg")
    content := [0xFF, 0xD8, 0xFF, 0, 0, 0] }

def c8Flow : Exchange :=
  { url := str "https://cdn.example.com/v/a.m3u8?t=1"
    status := 200
    contentType := some (str "application/vnd.apple.mpegurl")
    content := List.replicate 12 7 }

def c9Flow : Exchange :=
  { url := str "https://img.example.com/pic.jpg"
    status := 404
    contentType := some (str "image/jpeg")
    content := [0xFF, 0xD8, 0xFF, 0, 0, 0] }

def c10Flow : Exchange :=
  { url := str "https://v.example.com/seg/001.ts?sig=1"
    status := 503
    contentType := some (str "video/mp2t")
    content := List.replicate 11 9 }

def c10Flow2 : Exchange :=
  { url := str "https://v.example.com/other/001.ts?sig=2"
    status := 200
    contentType := some (str "video/mp2t")
    content := List.replicate 12 8 }

def c10Small : Exchange :=
  { url := str "https://v.example.com/seg/002.ts"
    status := 200
    contentType := some (str "video/mp2t")
    content := [1, 2, 3] }

def c7resps : Nat → AttemptResp := fun _ => { connectError := true }

-- =====================================================================
-- Helper lemmas about the string primitives.
-- =====================================================================

theorem takeBefore_append_of_not_mem (c : Char) (xs ys : Str) (h : c ∉ xs) :
    takeBefore c (xs ++ c :: ys) = xs := by
  induction xs with
  | nil => simp [takeBefore]
  | cons x xt ih =>
    have hx : x ≠ c := fun he => h (he ▸ List.mem_cons_self x xt)
    have ht : c ∉ xt := fun hm => h (List.mem_cons_of_mem x hm)
    simp [takeBefore, hx, takeBefore.eq_def] at ih ⊢
    exact ih ht

theorem splitChar_ne_nil (c : Char) (l : Str) : splitChar c l ≠ [] := by
  cases l with
  | nil => simp [splitChar]
  | cons x xs =>
    simp only [splitChar]
    rcases h : splitChar c xs with _ | ⟨y, ys⟩
    · simp
    · by_cases hx : x = c <;> simp [hx]

theorem splitChar_length (c : Char) (l : Str) :
    (splitChar c l).length = l.count c + 1 := by
  induction l with
  | nil => simp [splitChar]
  | cons x xs ih =>
    simp only [splitChar]
    rcases h : splitChar c xs with _ | ⟨y, ys⟩
    · exact absurd h (splitChar_ne_nil c xs)
    · rw [h] at ih
      by_cases hx : x = c
      · subst hx
        simp [List.count_cons, ih]
      · simp only [if_neg hx, List.length_cons, List.count_cons]
        simp only [List.length_cons] at ih
        simp [ih, hx]

theorem splitChar_of_not_mem (c : Char) (l : Str) (h : c ∉ l) : splitChar c l = [l] := by
  induction l with
  | nil => simp [splitChar]
  | cons x xs ih =>
    have hx : x ≠ c := fun he => h (he ▸ List.mem_cons_self x xs)
    have ht : c ∉ xs := fun hm => h (List.mem_cons_of_mem x hm)
    simp only [splitChar, ih ht]
    simp [hx]

theorem getLastD_splitChar_append (c : Char) (xs s : Str) (h : c ∉ s) :
    (splitChar c (xs ++ c :: s)).getLastD [] = s := by
  induction xs with
  | nil =>
    simp only [List.nil_append, splitChar]
    rcases hs : splitChar c s with _ | ⟨y, ys⟩
    · exact absurd hs (splitChar_ne_nil c s)
    · simp only [if_pos rfl]
      rw [splitChar_of_not_mem c s h] at hs
      cases hs
      simp
  | cons x xt ih =>
    simp only [List.cons_append, splitChar]
    rcases hr : splitChar c (xt ++ c :: s) with _ | ⟨y, ys⟩
    · exact absurd hr (splitChar_ne_nil c (xt ++ c :: s))
    · have hlen : 2 ≤ (splitChar c (xt ++ c :: s)).length := by
        rw [splitChar_length]
        have h1 : (xt ++ c :: s).count c = xt.count c + (c :: s).count c :=
          List.count_append c xt (c :: s)
        have h2 : (c :: s).count c = s.count c + 1 := by simp [List.count_cons]
        omega
      rw [hr] at hlen ih
      have hys : ys ≠ [] := by
        intro he
        rw [he] at hlen
        simp at hlen
      by_cases hx : x = c
      · simp only [if_pos hx]
        rw [List.getLastD_cons]
        exact ih
      · simp only [if_neg hx]
        rw [List.getLastD_cons] at ih ⊢
        cases ys with
        | nil => exact absurd rfl hys
        | cons z zs => simpa using ih

theorem takeBefore_of_not_mem (c : Char) (l : Str) (h : c ∉ l) : takeBefore c l = l := by
  induction l with
  | nil => simp [takeBefore]
  | cons x xs ih =>
    have hx : x ≠ c := fun he => h (he ▸ List.mem_cons_self x xs)
    have ht : c ∉ xs := fun hm => h (List.mem_cons_of_mem x hm)
    simp only [takeBefore, List.takeWhile_cons] at ih ⊢
    rw [if_pos (by simpa using hx)]
    rw [ih ht]

theorem apple_prefix_excludes_mp4 (l : Str)
    (h : (str "application/vnd.apple.mpegurl").isPrefixOf l = true) :
    (str "video/mp4").isPrefixOf l = false := by
  rcases (List.isPrefixOf_iff_prefix.mp h) with ⟨t, ht⟩
  cases l with
  | nil => simp [str] at ht
  | cons c cs =>
    have hc : c = 'a' := by
      have : str "application/vnd.apple.mpegurl" ++ t = c :: cs := ht
      simpa [str] using congrArg (fun l => l.headD ' ') this.symm
    subst hc
    simp [str, List.isPrefixOf]

-- =====================================================================
-- Claim C2: JPEG magic bytes versus declared Content-Type.
-- =====================================================================

/-- Claim C2, counterexample: an exchange whose body starts with the JPEG
marker `FF D8 FF` and carries no `imagex-fmt` hint, but declares
`Content-Type: image/png`, resolves to `"png"`, not `"jpg"` — the
Content-Type tier of `detect_image_ext` precedes the magic-byte tier, so the
claimed "regardless of the declared Content-Type" fails. -/
theorem claim2_counterexample :
    c2Flow.imagexFmt = none ∧
    [0xFF, 0xD8, 0xFF].isPrefixOf c2Flow.content = true ∧
    detect_image_ext c2Flow c2Flow.content = str "png" ∧
    str "png" ≠ str "jpg" := by decide

/-- Claim C2 (amended): for every exchange whose body starts with
`FF D8 FF`, carrying no vendor hint (absent or empty `imagex-fmt`), format
resolution returns `"jpg"` regardless of the declared Content-Type *provided*
the Content-Type does not begin with `image/` (the Content-Type tier precedes
magic-byte sniffing in `detect_image_ext`). -/
theorem claim2_amended (f : Exchange) (data : Bytes)
    (hfmt : f.imagexFmt = none ∨ f.imagexFmt = some [])
    (hct : (str "image/").isPrefixOf (ctLower f) = false)
    (hmagic : [0xFF, 0xD8, 0xFF].isPrefixOf data = true) :
    detect_image_ext f data = str "jpg" := by
  have hrest : detect_image_ext_rest f data = str "jpg" := by
    simp [detect_image_ext_rest, hct, detect_magic_ext, hmagic]
  rcases hfmt with h | h <;> simp [detect_image_ext, h, hrest]

/-- Witness for C2 (amended) at a concrete exchange. -/
theorem claim2_witness :
    (c2wFlow.imagexFmt = none ∨ c2wFlow.imagexFmt = some []) ∧
    detect_image_ext c2wFlow [0xFF, 0xD8, 0xFF, 1, 2] = str "jpg" :=
  ⟨Or.inl rfl, claim2_amended c2wFlow [0xFF, 0xD8, 0xFF, 1, 2] (Or.inl rfl) (by decide) (by decide)⟩

-- =====================================================================
-- Claim C5: the worker always releases the in-flight registry entry.
-- =====================================================================

/-- Claim C5: for every download task started by the direct-video path,
termination of the worker — normal return of `stream_download_mp4` (success
or exhausted retries) or any unexpected internal exception, both abstracted
by `body` — always removes the task's canonical key from the in-flight
registry `DOWNLOADING`: the `finally` block's `discard` runs unconditionally,
so the key is never left in the registry after the task ends. -/
theorem claim5_worker_releases (k : Str)
    (body : CaptureState → CaptureState × Option Str) (st : CaptureState) :
    k ∉ (mp4_worker k body st).1.downloading := by
  simp [mp4_worker, List.mem_filter]

-- =====================================================================
-- Claim C9: non-200/206 image candidates.
-- =====================================================================

/-- Claim C9: for every image-candidate exchange whose status is neither 200
nor 206 (404 in particular), `save_image` writes no file, changes no ledger
(the state is returned unchanged), and produces exactly one diagnostic record
with reason `NON_200_STATUS` carrying the offending status, before
returning. -/
theorem claim9_non200 (st : CaptureState) (f : Exchange)
    (h200 : f.status ≠ 200) (h206 : f.status ≠ 206) :
    save_image st f =
      (st, [Ev.unparsed (str "NON_200_STATUS") (str "status=" ++ natStr f.status) f.url]) := by
  simp [save_image, log_unparsed_image, h200, h206]

/-- Witness for C9 at a concrete 404 exchange. -/
theorem claim9_witness :
    c9Flow.status = 404 ∧
    save_image {} c9Flow =
      ({}, [Ev.unparsed (str "NON_200_STATUS") (str "status=404") c9Flow.url]) :=
  ⟨rfl, claim9_non200 {} c9Flow (by decide) (by decide)⟩

-- =====================================================================
-- Claim C4: a 200 answer to a ranged request restarts from zero.
-- =====================================================================

/-- Claim C4: when a non-empty partial artifact exists (so the request was
issued with a byte-range start) and the server answers `200`, the attempt
discards the partial artifact, resets the progress counter to zero, opens the
file in write (`"wb"`), not append, mode, and the completed artifact is
exactly the newly streamed bytes — never a concatenation with the old
bytes. -/
theorem claim4_range_ignored (c : Bytes) (r : AttemptResp)
    (hc : c ≠ [])
    (he : r.connectError = false)
    (hs : r.status = 200)
    (hf : r.failAfter = none) :
    (mp4_attempt (some c) r).mode = str "wb" ∧
    (mp4_attempt (some c) r).startDownloaded = 0 ∧
    (mp4_attempt (some c) r).outFile = some (r.chunks.filter (fun ch => ch ≠ [])).flatten ∧
    (mp4_attempt (some c) r).ok = true := by
  have hlen : 0 < c.length := List.length_pos.mpr hc
  simp [mp4_attempt, he, hs, hf, hlen]

/-- Witness for C4 at a concrete partial artifact and response. -/
theorem claim4_witness :
    ([9, 9, 9] : Bytes) ≠ [] ∧
    (mp4_attempt (some [9, 9, 9]) { status := 200, chunks := [[1, 2], [], [3]] }).mode = str "wb" ∧
    (mp4_attempt (some [9, 9, 9]) { status := 200, chunks := [[1, 2], [], [3]] }).startDownloaded = 0 ∧
    (mp4_attempt (some [9, 9, 9]) { status := 200, chunks := [[1, 2], [], [3]] }).outFile
      = some [1, 2, 3] ∧
    (mp4_attempt (some [9, 9, 9]) { status := 200, chunks := [[1, 2], [], [3]] }).ok = true := by
  have h := claim4_range_ignored [9, 9, 9] { status := 200, chunks := [[1, 2], [], [3]] }
    (by decide) rfl rfl rfl
  exact ⟨by decide, h.1, h.2.1, by rw [h.2.2.1]; decide, h.2.2.2⟩

-- =====================================================================
-- Claim C6: canonical keys ignore the query string.
-- =====================================================================

/-- Claim C6: (i) two URLs that differ only in their query string have the
same canonical key (`url_key` strips from the first `?`); (ii) consequently,
once the shared key is a member of the accepted-image ledger, a (status-valid,
large-enough) exchange for the other URL is rejected as `DUPLICATE_URL` and
not saved: the state is returned unchanged and the only output is the one
diagnostic record. -/
theorem claim6_query_canonical :
    (∀ (base q1 q2 : Str), '?' ∉ base →
        url_key (base ++ '?' :: q1) = url_key (base ++ '?' :: q2)) ∧
    (∀ (st : CaptureState) (f : Exchange) (base q1 q2 : Str),
        '?' ∉ base →
        f.url = base ++ '?' :: q2 →
        url_key (base ++ '?' :: q1) ∈ st.seenImage →
        (f.status = 200 ∨ f.status = 206) →
        5 ≤ f.content.length →
        save_image st f = (st, [Ev.unparsed (str "DUPLICATE_URL") [] f.url])) := by
  constructor
  · intro base q1 q2 h
    rw [url_key, url_key, takeBefore_append_of_not_mem _ _ _ h,
      takeBefore_append_of_not_mem _ _ _ h]
  · intro st f base q1 q2 hb hurl hmem hst hlen
    have hk1 : url_key (base ++ '?' :: q1) = base := takeBefore_append_of_not_mem '?' base q1 hb
    have hk2 : url_key f.url = base := by
      rw [hurl]; exact takeBefore_append_of_not_mem '?' base q2 hb
    rw [hk1] at hmem
    have hmem2 : url_key f.url ∈ st.seenImage := by rw [hk2]; exact hmem
    have hlt : ¬ (f.content.length < 5) := by omega
    rcases hst with h | h <;> simp [save_image, h, hlt, hmem2, log_unparsed_image]

/-- Witness for C6 at concrete URLs differing only in the query string. -/
theorem claim6_witness :
    ('?' ∉ str "https://img.example.com/photo/p.jpg") ∧
    save_image { seenImage := [str "https://img.example.com/photo/p.jpg"] } c6Flow =
      ({ seenImage := [str "https://img.example.com/photo/p.jpg"] },
       [Ev.unparsed (str "DUPLICATE_URL") [] c6Flow.url]) :=
  ⟨by decide,
   claim6_query_canonical.2 { seenImage := [str "https://img.example.com/photo/p.jpg"] }
     c6Flow (str "https://img.example.com/photo/p.jpg") (str "v=1") (str "v=2")
     (by decide) (by decide) (by decide) (Or.inl rfl) (by decide)⟩

-- =====================================================================
-- Claim C3: when are accepted-ledger entries recorded?
-- =====================================================================

/-- Claim C3, counterexample: an image-candidate exchange whose format
resolves to the bin marker nevertheless gains an accepted-ledger entry —
`save_image` adds the canonical key to `SEEN_IMAGE_URL` and appends to the
accepted log `image_urls.txt` *before* resolving the format, and then rejects
the body (`UNKNOWN_FORMAT_BIN`) without writing any file. -/
theorem claim3_counterexample :
    detect_image_ext c3Flow c3Flow.content = str "bin" ∧
    (save_image {} c3Flow).1.seenImage = [url_key c3Flow.url] ∧
    (save_image {} c3Flow).2 =
      [Ev.line IMAGE_URL_LOG c3Flow.url,
       Ev.unparsed (str "UNKNOWN_FORMAT_BIN") [] c3Flow.url] ∧
    (save_image {} c3Flow).1.files = [] := by decide

/-- Claim C3 (amended): accepted-ledger entries are recorded after the
status, minimum-size and duplicate checks but *before* format validation
(images) and at download start rather than after download completion (direct
video): the accepted-image set gains the canonical key exactly when the
status is 200/206, the body has at least 5 bytes and the key is fresh —
independently of the resolved format — and the accepted-video set gains the
key exactly when the status and candidate gates pass and the key is fresh —
independently of the download's eventual outcome. -/
theorem claim3_amended :
    (∀ (st : CaptureState) (f : Exchange),
        (save_image st f).1.seenImage =
          if (f.status = 200 ∨ f.status = 206) ∧ 5 ≤ f.content.length
              ∧ url_key f.url ∉ st.seenImage
          then url_key f.url :: st.seenImage else st.seenImage) ∧
    (∀ (st : CaptureState) (f : Exchange),
        (start_mp4_download_once st f).1.seenMp4 =
          if (f.status = 200 ∨ f.status = 206) ∧ is_mp4_candidate f = true
              ∧ url_key f.url ∉ st.seenMp4
          then url_key f.url :: st.seenMp4 else st.seenMp4) := by
  constructor
  · intro st f
    by_cases h1 : f.status = 200 ∨ f.status = 206
    · by_cases h2 : f.content.length < 5
      · have h2' : ¬ (5 ≤ f.content.length) := by omega
        simp [save_image, h1, h2, h2']
      · have h2' : 5 ≤ f.content.length := by omega
        by_cases h3 : url_key f.url ∈ st.seenImage
        · simp [save_image, h1, h2, h3, h2']
        · by_cases hb : detect_image_ext f f.content = str "bin"
          · simp [save_image, h1, h2, h3, h2', hb]
          · by_cases ha : detect_image_ext f f.content = str "avif"
            · have hne : str "avif" ≠ str "bin" := by decide
              simp [save_image, h1, h2, h3, h2', hb, ha, if_neg hne]
            · simp [save_image, h1, h2, h3, h2', hb, ha]
    · simp [save_image, h1]
  · intro st f
    by_cases h1 : f.status = 200 ∨ f.status = 206
    · by_cases h2 : is_mp4_candidate f = true
      · by_cases h3 : url_key f.url ∈ st.seenMp4
        · simp [start_mp4_download_once, h1, h2, h3]
        · by_cases h4 : url_key f.url ∈ st.downloading <;>
            simp [start_mp4_download_once, h1, h2, h3, h4]
      · simp [start_mp4_download_once, h1, h2]
    · simp [start_mp4_download_once, h1]

-- =====================================================================
-- Claim C10: HLS/DASH segments are written unconditionally.
-- =====================================================================

/-- Claim C10: for HLS (`.ts`) and DASH (`.m4s`) segments, a body of at
least 10 bytes is written unconditionally under its sanitized final path
segment — the response status is never consulted, no ledger is touched (all
ledger fields are returned unchanged) — so a later exchange with the same
final path segment silently overwrites the earlier file; a body shorter than
10 bytes produces no write and no log output at all. -/
theorem claim10_segments :
    (∀ (st : CaptureState) (f : Exchange), 10 ≤ f.content.length →
        save_ts_segment st f =
          ({ st with files := (ts_target f, f.content) :: st.files },
           [Ev.fwrite (ts_target f) f.content])) ∧
    (∀ (st : CaptureState) (f : Exchange) (s1 s2 : Nat),
        save_ts_segment st { f with status := s1 } =
          save_ts_segment st { f with status := s2 }) ∧
    (∀ (st : CaptureState) (f1 f2 : Exchange),
        10 ≤ f1.content.length → 10 ≤ f2.content.length →
        ts_target f1 = ts_target f2 →
        ((save_ts_segment (save_ts_segment st f1).1 f2).1.files).lookup (ts_target f1) =
          some f2.content) ∧
    (∀ (st : CaptureState) (f : Exchange), f.content.length < 10 →
        save_ts_segment st f = (st, [])) ∧
    (∀ (st : CaptureState) (f : Exchange), 10 ≤ f.content.length →
        save_m4s_segment st f =
          ({ st with files := (m4s_target f, f.content) :: st.files },
           [Ev.fwrite (m4s_target f) f.content])) ∧
    (∀ (st : CaptureState) (f : Exchange), f.content.length < 10 →
        save_m4s_segment st f = (st, [])) := by
  refine ⟨?_, ?_, ?_, ?_, ?_, ?_⟩
  · intro st f h
    have h2 : ¬ (f.content.length < 10) := by omega
    simp [save_ts_segment, h2]
  · intro st f s1 s2
    simp [save_ts_segment, ts_target]
  · intro st f1 f2 h1 h2 heq
    have n1 : ¬ (f1.content.length < 10) := by omega
    have n2 : ¬ (f2.content.length < 10) := by omega
    simp [save_ts_segment, n1, n2, heq, List.lookup]
  · intro st f h
    simp [save_ts_segment, h]
  · intro st f h
    have h2 : ¬ (f.content.length < 10) := by omega
    simp [save_m4s_segment, h2]
  · intro st f h
    simp [save_m4s_segment, h]

/-- Witness for C10: a 503 segment exchange of 11 bytes is written; a later
segment with the same final path segment (different directory and query)
overwrites it; a 3-byte segment produces nothing. -/
theorem claim10_witness :
    10 ≤ c10Flow.content.length ∧
    save_ts_segment {} c10Flow =
      ({ files := [(ts_target c10Flow, c10Flow.content)] },
       [Ev.fwrite (ts_target c10Flow) c10Flow.content]) ∧
    ts_target c10Flow = ts_target c10Flow2 ∧
    ((save_ts_segment (save_ts_segment {} c10Flow).1 c10Flow2).1.files).lookup
        (ts_target c10Flow) = some c10Flow2.content ∧
    c10Small.content.length < 10 ∧
    save_ts_segment {} c10Small = ({}, []) :=
  ⟨by decide, claim10_segments.1 {} c10Flow (by decide), by decide,
   claim10_segments.2.2.1 {} c10Flow c10Flow2 (by decide) (by decide) (by decide),
   by decide, claim10_segments.2.2.2.1 {} c10Small (by decide)⟩

-- =====================================================================
-- Claim C7: bounded retries with linear backoff, never raising.
-- =====================================================================

theorem go_attempts_le (resps : Nat → AttemptResp) (url out : Str) :
    ∀ (rem : Nat) (tmp o0 : Option Bytes) (a : Nat),
      countAttempts (mp4_download_go resps url out tmp o0 a rem).events ≤ rem := by
  intro rem
  induction rem with
  | zero => intro tmp o0 a; simp [mp4_download_go, countAttempts]
  | succ n ih =>
    intro tmp o0 a
    simp only [mp4_download_go]
    by_cases hok : (mp4_attempt tmp (resps a)).ok = true
    · simp [hok, countAttempts]
    · by_cases hn : n = 0
      · simp [hok, hn, countAttempts]
      · have hr := ih (mp4_attempt tmp (resps a)).tmp o0 (a + 1)
        simp only [countAttempts] at hr
        simp [hok, hn, countAttempts, List.filter]
        omega

/-- Claim C7: (i) the retry loop of `stream_download_mp4` performs at most
`max_retries` attempts, whatever the server does, and always returns a value
(the result type has no exception component: every attempt failure is caught
and the loop returns at the ceiling); (ii) when every attempt fails, the
trace is exactly: for each attempt `n = 1, 2, 3` an attempt log, an error log
carrying the attempt number and the target (URL and destination), and —
except after the final attempt — a sleep of `1500·n` ms, i.e. `1.5·n` s, a
backoff linearly proportional to the attempt number; after the ceiling the
function returns with no further retry. -/
theorem claim7_retry_loop :
    (∀ (resps : Nat → AttemptResp) (url out : Str) (tmp0 o0 : Option Bytes) (mr : Nat),
        countAttempts (stream_download_mp4 resps url out tmp0 o0 mr).events ≤ mr) ∧
    (∀ (resps : Nat → AttemptResp) (url out : Str) (tmp0 o0 : Option Bytes),
        (resps 1).connectError = true → (resps 2).connectError = true →
        (resps 3).connectError = true →
        stream_download_mp4 resps url out tmp0 o0 3 =
          ⟨tmp0, o0,
           [DlEvent.attemptStart 1 ((tmp0.getD []).length),
            DlEvent.errLine 1 url out, DlEvent.sleepMs (1500 * 1),
            DlEvent.attemptStart 2 ((tmp0.getD []).length),
            DlEvent.errLine 2 url out, DlEvent.sleepMs (1500 * 2),
            DlEvent.attemptStart 3 ((tmp0.getD []).length),
            DlEvent.errLine 3 url out]⟩) := by
  constructor
  · intro resps url out tmp0 o0 mr
    exact go_attempts_le resps url out mr tmp0 o0 1
  · intro resps url out tmp0 o0 h1 h2 h3
    have ha : ∀ n, (resps n).connectError = true →
        mp4_attempt tmp0 (resps n) =
          ⟨false, tmp0, none, [], (tmp0.getD []).length, (tmp0.getD []).length, none⟩ := by
      intro n hn
      simp [mp4_attempt, hn]
    rw [stream_download_mp4]
    simp [mp4_download_go, ha 1 h1, ha 2 h2, ha 3 h3]

/-- Witness for C7 at a concrete always-failing server. -/
theorem claim7_witness :
    (c7resps 1).connectError = true ∧
    stream_download_mp4 c7resps (str "u") (str "o") (some [5]) none 3 =
      ⟨some [5], none,
       [DlEvent.attemptStart 1 1, DlEvent.errLine 1 (str "u") (str "o"), DlEvent.sleepMs 1500,
        DlEvent.attemptStart 2 1, DlEvent.errLine 2 (str "u") (str "o"), DlEvent.sleepMs 3000,
        DlEvent.attemptStart 3 1, DlEvent.errLine 3 (str "u") (str "o")]⟩ :=
  ⟨rfl, claim7_retry_loop.2 c7resps (str "u") (str "o") (some [5]) none rfl rfl rfl⟩

-- =====================================================================
-- Claim C1: at-most-once dispatch of direct-MP4 downloads.
-- =====================================================================

theorem start_once_entry (st : CaptureState) (f : Exchange) (k : Str)
    (h : (start_mp4_download_once st f).2.any (isStartFor k) = true) :
    k ∉ st.seenMp4 ∧ k ∉ st.downloading ∧
    k ∈ (start_mp4_download_once st f).1.seenMp4 ∧
    k ∈ (start_mp4_download_once st f).1.downloading := by
  by_cases h1 : f.status = 200 ∨ f.status = 206
  case neg => simp [start_mp4_download_once, h1] at h
  by_cases h2 : is_mp4_candidate f = true
  case neg => simp [start_mp4_download_once, h1, h2] at h
  by_cases h3 : url_key f.url ∈ st.seenMp4
  case pos => simp [start_mp4_download_once, h1, h2, h3] at h
  by_cases h4 : url_key f.url ∈ st.downloading
  case pos => simp [start_mp4_download_once, h1, h2, h3, h4, isStartFor] at h
  simp only [start_mp4_download_once, h1, h2, h3, h4] at h ⊢
  simp [isStartFor] at h
  subst h
  refine ⟨h3, h4, ?_, ?_⟩ <;> simp [h3, h4]

theorem start_once_startsFor (st : CaptureState) (f : Exchange) (k : Str) :
    startsFor (start_mp4_download_once st f).2 k ≤ 1 ∧
    (k ∈ st.seenMp4 → startsFor (start_mp4_download_once st f).2 k = 0) ∧
    (k ∈ st.seenMp4 → k ∈ (start_mp4_download_once st f).1.seenMp4) ∧
    (1 ≤ startsFor (start_mp4_download_once st f).2 k →
      k ∈ (start_mp4_download_once st f).1.seenMp4) := by
  by_cases h1 : f.status = 200 ∨ f.status = 206
  case neg => simp [start_mp4_download_once, h1, startsFor]
  by_cases h2 : is_mp4_candidate f = true
  case neg => simp [start_mp4_download_once, h1, h2, startsFor]
  by_cases h3 : url_key f.url ∈ st.seenMp4
  case pos =>
    simp [start_mp4_download_once, h1, h2, h3, startsFor]
  by_cases h4 : url_key f.url ∈ st.downloading
  · simp only [start_mp4_download_once, h1, h2, h3, h4]
    simp [startsFor, isStartFor, List.filter, h3]
    intro hm
    exact Or.inr hm
  · simp only [start_mp4_download_once, h1, h2, h3, h4]
    by_cases hk : url_key f.url = k
    · subst hk
      simp [startsFor, isStartFor, List.filter, h3]
    · have hbk : (url_key f.url == k) = false := by simpa using hk
      simp [startsFor, isStartFor, List.filter, hbk]
      intro hmem
      exact Or.inr hmem

theorem processMp4_startsFor_le (k : Str) :
    ∀ (fs : List Exchange) (st : CaptureState),
      startsFor (processMp4 st fs).2 k ≤ if k ∈ st.seenMp4 then 0 else 1 := by
  intro fs
  induction fs with
  | nil =>
    intro st
    simp only [processMp4, startsFor, List.filter_nil, List.length_nil]
    exact Nat.zero_le _
  | cons f fs ih =>
    intro st
    have hcall := start_once_startsFor st f k
    have happ : startsFor (processMp4 st (f :: fs)).2 k =
        startsFor (start_mp4_download_once st f).2 k +
          startsFor (processMp4 (start_mp4_download_once st f).1 fs).2 k := by
      simp [processMp4, startsFor, List.filter_append]
    rw [happ]
    have hrest := ih (start_mp4_download_once st f).1
    by_cases hmem : k ∈ st.seenMp4
    · have h0 := hcall.2.1 hmem
      have hmono := hcall.2.2.1 hmem
      rw [if_pos hmem]
      rw [if_pos hmono] at hrest
      omega
    · rw [if_neg hmem]
      by_cases hs : 1 ≤ startsFor (start_mp4_download_once st f).2 k
      · have hin := hcall.2.2.2 hs
        rw [if_pos hin] at hrest
        have hle := hcall.1
        omega
      · have h0 : startsFor (start_mp4_download_once st f).2 k = 0 := by omega
        have hite : (if k ∈ (start_mp4_download_once st f).1.seenMp4 then (0:Nat) else 1) ≤ 1 := by
          split <;> omega
        omega

/-- Claim C1, counterexample: in the statement-level interleaving model of
`start_mp4_download_once`, two hook invocations carrying the same canonical
key can *both* pass the `SEEN_MP4_URL` membership check (lines 689-691 are
executed without holding any lock, so the check and the insert are not atomic
and are not covered by `DOWNLOADING_LOCK`), and if the first download task
terminates — releasing its `DOWNLOADING` entry — before the second invocation
reaches the lock, the second invocation starts a second download task for the
same key.  The exhibited schedule ends with two started tasks, refuting both
"both memberships are set atomically under a single lock" and "at most one
download task is ever started per canonical key per process lifetime". -/
theorem claim1_counterexample :
    (raceRun (raceTwo (str "https://v.example.com/a.mp4"))
        [0, 1, 0, 0, 0, 0, 0, 0, 2, 2, 2, 2, 1, 1, 1, 1, 1, 1]).started =
      [str "https://v.example.com/a.mp4", str "https://v.example.com/a.mp4"] ∧
    ¬ ((raceRun (raceTwo (str "https://v.example.com/a.mp4"))
        [0, 1, 0, 0, 0, 0, 0, 0, 2, 2, 2, 2, 1, 1, 1, 1, 1, 1]).started.length ≤ 1) := by
  constructor
  · decide
  · decide

/-- Claim C1 (amended): a download task for a canonical key is started only
if, at the moment of the respective checks, the key is neither in the
accepted set `SEEN_MP4_URL` nor in the in-flight registry `DOWNLOADING`, and
on start both memberships hold; the in-flight check-and-insert is atomic
under `DOWNLOADING_LOCK`, but the accepted-set check-and-insert happens
earlier *without* the lock, so the two are not set atomically together.
When hook invocations are processed sequentially (one exchange at a time, as
the interception host serializes them), at most one download task is ever
started per canonical key per process lifetime. -/
theorem claim1_amended :
    (∀ (st : CaptureState) (f : Exchange) (k : Str),
        (start_mp4_download_once st f).2.any (isStartFor k) = true →
        k ∉ st.seenMp4 ∧ k ∉ st.downloading ∧
        k ∈ (start_mp4_download_once st f).1.seenMp4 ∧
        k ∈ (start_mp4_download_once st f).1.downloading) ∧
    (∀ (fs : List Exchange) (k : Str), startsFor (processMp4 {} fs).2 k ≤ 1) := by
  constructor
  · exact start_once_entry
  · intro fs k
    have h := processMp4_startsFor_le k fs {}
    have : k ∉ ({} : CaptureState).seenMp4 := by simp [CaptureState.seenMp4]
    rw [if_neg this] at h
    exact h

/-- Witness for C1 (amended) at a concrete direct-MP4 exchange. -/
theorem claim1_witness :
    (start_mp4_download_once {} c1Flow).2.any
        (isStartFor (str "https://v.example.com/a.mp4")) = true ∧
    ((str "https://v.example.com/a.mp4") ∉ ({} : CaptureState).seenMp4 ∧
     (str "https://v.example.com/a.mp4") ∉ ({} : CaptureState).downloading ∧
     (str "https://v.example.com/a.mp4") ∈ (start_mp4_download_once {} c1Flow).1.seenMp4 ∧
     (str "https://v.example.com/a.mp4") ∈ (start_mp4_download_once {} c1Flow).1.downloading) :=
  ⟨by decide, claim1_amended.1 {} c1Flow (str "https://v.example.com/a.mp4") (by decide)⟩

-- =====================================================================
-- Claim C8: the end-to-end HLS manifest scenario.
-- =====================================================================

/-- Claim C8: an exchange whose URL is `<pre>/a.m3u8?<query>`, with
`Content-Type` beginning with `application/vnd.apple.mpegurl`, status 200 and
a body of at least 10 bytes, whose canonical key is fresh, is dispatched by
the orchestrator to the HLS-manifest handler (not the direct-MP4 handler):
the manifest body is persisted to `videos/m3u8/a.m3u8`, the external
transcoder is launched (asynchronously, `Ev.spawnT` marks the non-waiting
`Popen`) with the original full URL — query included, not the saved file — as
input, `-c copy` stream semantics and `videos/mp4/a.mp4` as output, and the
accepted-video ledger gains exactly one entry (the key is consed onto
`SEEN_VIDEO_URL` and one line is appended to `video_urls.txt`). -/
theorem claim8_m3u8_scenario (st : CaptureState) (pre q ct0 : Str) (f : Exchange)
    (hurl : f.url = pre ++ str "/a.m3u8?" ++ q)
    (hct : f.contentType = some ct0)
    (happle : (str "application/vnd.apple.mpegurl").isPrefixOf (lowerS ct0) = true)
    (hstatus : f.status = 200)
    (hlen : 10 ≤ f.content.length)
    (hpre : '?' ∉ pre)
    (hq : '/' ∉ q)
    (hs1 : (str ".mp4").isSuffixOf (lowerS f.url) = false)
    (hs2 : containsSeq (str ".mp4?") (lowerS f.url) = false)
    (hfresh : url_key f.url ∉ st.seenVideo)
    (hfreshAll : url_key f.url ∉ st.seenVideoAll) :
    url_key f.url = pre ++ str "/a.m3u8" ∧
    response_video st f =
      ({ st with seenVideoAll := url_key f.url :: st.seenVideoAll,
                 seenVideo := url_key f.url :: st.seenVideo,
                 files := (str "output/videos/m3u8/a.m3u8", f.content) :: st.files },
       [Ev.line VIDEO_ALL_LOG (f.url ++ str "    [ct=" ++ lowerS ct0 ++ str "]"),
        Ev.line VIDEO_URL_LOG f.url,
        Ev.fwrite (str "output/videos/m3u8/a.m3u8") f.content,
        Ev.spawnT [str "ffmpeg", str "-y", str "-i", f.url, str "-c", str "copy",
                   str "output/videos/mp4/a.mp4"]]) := by
  have hsplit : f.url = (pre ++ '/' :: str "a.m3u8") ++ '?' :: q := by
    rw [hurl]
    have h0 : str "/a.m3u8?" = '/' :: (str "a.m3u8" ++ ['?']) := rfl
    rw [h0]
    simp [List.append_assoc]
  have hkey : url_key f.url = pre ++ str "/a.m3u8" := by
    rw [hsplit, url_key]
    have hnm : '?' ∉ pre ++ '/' :: str "a.m3u8" := by
      intro hm
      rcases List.mem_append.mp hm with h | h
      · exact hpre h
      · exact absurd h (by decide)
    rw [takeBefore_append_of_not_mem _ _ _ hnm]
    rfl
  have hsplit2 : f.url = pre ++ '/' :: (str "a.m3u8" ++ '?' :: q) := by
    rw [hsplit]
    simp [List.append_assoc]
  have hlast : lastSeg f.url = str "a.m3u8" ++ '?' :: q := by
    rw [hsplit2, lastSeg]
    apply getLastD_splitChar_append
    intro hm
    rcases List.mem_append.mp hm with h | h
    · exact absurd h (by decide)
    · rcases List.mem_cons.mp h with h | h
      · exact absurd h (by decide)
      · exact hq h
  have hfname : takeBefore '?' (lastSeg f.url) = str "a.m3u8" := by
    rw [hlast]
    exact takeBefore_append_of_not_mem '?' (str "a.m3u8") q (by decide)
  have hctl : ctLower f = lowerS ct0 := by rw [ctLower, hct]; rfl
  have happle2 : (str "application/vnd.apple.mpegurl").isPrefixOf (ctLower f) = true := by
    rw [hctl]; exact happle
  have hvc : is_video_candidate f = true := by
    simp [is_video_candidate, happle2]
  have hnv : (str "video/mp4").isPrefixOf (ctLower f) = false := by
    rw [hctl]; exact apple_prefix_excludes_mp4 _ happle
  have hmp4 : is_mp4_candidate f = false := by
    simp [is_mp4_candidate, hnv, hs1, hs2]
  have hlen2 : ¬ (f.content.length < 10) := by omega
  have hne : ¬ (str "a.m3u8" = ([] : Str)) := by decide
  have e2 : (str ".m3u8").isSuffixOf (str "a.m3u8") = true := by decide
  have e3 : M3U8_DIR ++ str "/" ++ str "a.m3u8" = str "output/videos/m3u8/a.m3u8" := by decide
  have e4 : replaceAll (str ".m3u8") (str ".mp4") (str "a.m3u8") = str "a.mp4" := by decide
  have e5 : MP4_DIR ++ str "/" ++ str "a.mp4" = str "output/videos/mp4/a.mp4" := by decide
  have happleP : str "application/vnd.apple.mpegurl" <+: lowerS ct0 :=
    List.isPrefixOf_iff_prefix.mp happle
  refine ⟨hkey, ?_⟩
  simp only [response_video, hvc, hmp4, happle2, log_all_video_url,
    save_m3u8_and_download, hstatus, hfname, hctl, if_neg hfreshAll]
  simp [hfresh, hlen2, hne, e2, e3, e4, e5, hctl, happleP]

/-- Witness for C8 at the concrete exchange `https://cdn.example.com/v/a.m3u8?t=1`. -/
theorem claim8_witness :
    c8Flow.url = str "https://cdn.example.com/v" ++ str "/a.m3u8?" ++ str "t=1" ∧
    response_video {} c8Flow =
      ({ seenVideoAll := [url_key c8Flow.url], seenVideo := [url_key c8Flow.url],
         files := [(str "output/videos/m3u8/a.m3u8", c8Flow.content)] },
       [Ev.line VIDEO_ALL_LOG
          (c8Flow.url ++ str "    [ct=" ++ lowerS (str "application/vnd.apple.mpegurl")
            ++ str "]"),
        Ev.line VIDEO_URL_LOG c8Flow.url,
        Ev.fwrite (str "output/videos/m3u8/a.m3u8") c8Flow.content,
        Ev.spawnT [str "ffmpeg", str "-y", str "-i", c8Flow.url, str "-c", str "copy",
                   str "output/videos/mp4/a.mp4"]]) :=
  ⟨by decide,
   (claim8_m3u8_scenario {} (str "https://cdn.example.com/v") (str "t=1")
     (str "application/vnd.apple.mpegurl") c8Flow (by decide) rfl (by decide) rfl
     (by decide) (by decide) (by decide) (by decide) (by decide) (by decide) (by decide)).2⟩
